import Mathlib

/-!
Verification of the transaction-normalization pipeline and the waterfall
savings allocator of the jaynode repository.

The embedding models the Python sources `src/streamlit/finance_utils.py` and
`src/streamlit/pages/Waterfall.py`.  Strings are `List Char` (ASCII case
mapping, as all keywords and markers in the source are ASCII); monetary
values are `ℚ`.  Python's `float()` grammar is modelled for the
sign/digits/fraction/exponent forms; the `inf`/`nan` words (not expressible
in `ℚ`) and digit-group underscores are outside the model.
-/

namespace Jaynode

abbrev Str := List Char

/-- Python whitespace characters stripped by `str.strip()` (ASCII set). -/
def isSpaceChar (c : Char) : Bool :=
  decide (c.toNat = 32 ∨ c.toNat = 9 ∨ c.toNat = 10 ∨ c.toNat = 13
    ∨ c.toNat = 11 ∨ c.toNat = 12)

/-- Model of Python `str.lower()` (ASCII case map, `Char.toLower`). -/
def lowerStr (l : Str) : Str := l.map Char.toLower

/-- Model of Python `str.strip()`: drop leading and trailing whitespace. -/
def strip (l : Str) : Str :=
  ((l.dropWhile isSpaceChar).reverse.dropWhile isSpaceChar).reverse

/-- Worker for `title`: the flag records whether the previous character was
a letter (Python title-cases the first letter of each alphabetic run and
lower-cases the rest of the run). -/
def titleGo : Bool → Str → Str
  | _, [] => []
  | prevAlpha, c :: rest =>
    (if c.isAlpha then (if prevAlpha then c.toLower else c.toUpper) else c)
      :: titleGo c.isAlpha rest

/-- Model of Python `str.title()` (ASCII). -/
def title (l : Str) : Str := titleGo false l

/-- Python `k in s` substring test, as a Bool via list-infix decidability. -/
def containsSub (k : Str) (s : Str) : Bool := decide (k <:+: s)

/-- Python `any(k in s for k in ks)`. -/
def kwAny (ks : List Str) (s : Str) : Bool := ks.any (fun k => containsSub k s)

/-!  Function `clean_category` from src/streamlit/finance_utils.py (lines 21-50).
`none` models a pandas NA value (`pd.isna(cat)` true). -/

def clean_category (cat : Option Str) : Str :=
  match cat with
  | none => ("Uncategorized".toList)
  | some c0 =>
    let c := strip (lowerStr c0)
    if kwAny [("food".toList), ("restaurant".toList), ("drink".toList)] c then
      ("Food & Drink".toList)
    else if kwAny [("gas".toList), ("fuel".toList)] c then ("Gas".toList)
    else if kwAny [("grocery".toList)] c then ("Groceries".toList)
    else if kwAny [("travel".toList), ("airline".toList), ("hotel".toList)] c then
      ("Travel".toList)
    else if kwAny [("entertainment".toList), ("movies".toList), ("theater".toList)] c then
      ("Entertainment".toList)
    else if kwAny [("utility".toList), ("bill".toList)] c then ("Utilities".toList)
    else if kwAny [("health".toList), ("medical".toList)] c then
      ("Health & Wellness".toList)
    else if kwAny [("shop".toList), ("retail".toList), ("clothing".toList)] c then
      ("Shopping".toList)
    else if kwAny [("fees".toList), ("adjustment".toList), ("charge".toList)] c then
      ("Fees & Adjustments".toList)
    else if kwAny [("donation".toList), ("gift".toList)] c then
      ("Gifts & Donations".toList)
    else if kwAny [("personal".toList), ("home".toList), ("auto".toList)] c then
      ("Personal & Home".toList)
    else if kwAny [("misc".toList)] c then ("Misc".toList)
    else title c

/-!  Function `clean_type` from src/streamlit/finance_utils.py (lines 52-65). -/

def clean_type (tp : Option Str) : Str :=
  match tp with
  | none => ("Other".toList)
  | some t0 =>
    let t := strip (lowerStr t0)
    if kwAny [("deposit".toList), ("income".toList), ("return".toList)] t then
      ("Income".toList)
    else if kwAny [("payment".toList), ("withdrawal".toList), ("purchase".toList),
        ("debit".toList)] t then
      ("Spending".toList)
    else if kwAny [("transfer".toList)] t then ("Transfer".toList)
    else if kwAny [("interest".toList)] t then ("Interest".toList)
    else title t

/-!  Model of Python `float()` on the sign/digits/fraction/exponent grammar. -/

/-- Split a leading sign character; result is the sign as `1` or `-1`. -/
def parseSign : Str → ℤ × Str
  | '+' :: r => (1, r)
  | '-' :: r => (-1, r)
  | l => (1, l)

/-- Numeric value of a digit run (most significant first). -/
def digitsToNat (ds : Str) : ℕ :=
  ds.foldl (fun a c => 10 * a + (c.toNat - 48)) 0

/-- Fractional part: consumes a leading dot plus digit run, if present. -/
def parseFrac : Str → Str × Str
  | '.' :: rest => rest.span Char.isDigit
  | l => ([], l)

/-- Exponent part: empty input means exponent 0; otherwise requires
the whole remaining input to be an exponent marker, optional sign
and a nonempty digit run. -/
def parseExp : Str → Option ℤ
  | [] => some 0
  | c :: rest =>
    if c = 'e' ∨ c = 'E' then
      let sr := parseSign rest
      let er := sr.2.span Char.isDigit
      if er.1 = [] ∨ er.2 ≠ [] then none
      else some (sr.1 * (digitsToNat er.1 : ℤ))
    else none

/-- Model of Python `float(s)` on finite decimal literals: returns `none`
exactly when the text is not a valid literal of the modelled grammar. -/
def parseFloat (l : Str) : Option ℚ :=
  let sl := parseSign l
  let dr := sl.2.span Char.isDigit
  let fr := parseFrac dr.2
  if dr.1 = [] ∧ fr.1 = [] then none
  else
    match parseExp fr.2 with
    | none => none
    | some e =>
      let mant : ℤ := sl.1 * ((digitsToNat dr.1) * 10 ^ fr.1.length + digitsToNat fr.1)
      if 0 ≤ e then
        some (Rat.divInt (mant * 10 ^ e.toNat) (10 ^ fr.1.length))
      else
        some (Rat.divInt mant (10 ^ fr.1.length * 10 ^ (-e).toNat))

/-- Python built-in `abs` on a rational. -/
def pyAbs (q : ℚ) : ℚ := if q < 0 then -q else q

/-- `str(row["Amount"]).replace("$", "").replace(",", "").strip()`. -/
def cleanedAmountText (amount : Str) : Str :=
  strip ((amount.filter (fun c => c ≠ '$')).filter (fun c => c ≠ ','))

/-!  Function `clean_amount` from src/streamlit/finance_utils.py (lines 67-80).
The source reads the row's `Amount` and `Type` fields; here they are the two
arguments.  `str(row["Amount"]).replace("$","").replace(",","").strip()` is
the filter-then-strip below; the `try/except ValueError` around `float` is
the `Option` match, with `none` (parse failure) mapped to 0. -/

def clean_amount (amount : Str) (tp : Str) : ℚ :=
  let amtStr := cleanedAmountText amount
  match parseFloat amtStr with
  | some value =>
    let rawType := lowerStr tp
    if rawType ∈ [("income".toList), ("deposit".toList), ("return".toList),
        ("credit".toList)] then pyAbs value
    else if rawType ∈ [("payment".toList), ("withdrawal".toList), ("debit".toList),
        ("purchase".toList)] then -(pyAbs value)
    else value
  | none => 0

/-!  The waterfall allocator from src/streamlit/pages/Waterfall.py.
Dates are calendar triples ordered lexicographically (the order of Python
`datetime.date`); money is `ℚ`.  Python's `list.sort` is stable, as is
`List.insertionSort`, so the model sorts identically. -/

structure Date where
  year : ℕ
  month : ℕ
  day : ℕ
deriving DecidableEq, Repr

/-- Order of Python `datetime.date`: lexicographic on (year, month, day). -/
abbrev dateLe (a b : Date) : Prop :=
  a.year < b.year ∨ (a.year = b.year ∧
    (a.month < b.month ∨ (a.month = b.month ∧ a.day ≤ b.day)))

/-- The `Goal` dataclass of Waterfall.py: `allocation` defaults to 0. -/
structure Goal where
  id : Option ℕ
  name : Str
  target_date : Date
  target_amount : ℚ
  allocation : ℚ := 0
deriving DecidableEq, Repr

/-- Sort key used by `allocate_cash`: `g.target_date` (chronological). -/
abbrev goalLe (a b : Goal) : Prop := dateLe a.target_date b.target_date

instance : IsTotal Goal goalLe := by
  constructor
  intro a b
  simp only [goalLe, dateLe]
  omega

instance : IsTrans Goal goalLe := by
  constructor
  intro a b c hab hbc
  simp only [goalLe, dateLe] at *
  omega

/-- Python `min(a, b)` on two values: the first minimal one. -/
def pyMin (a b : ℚ) : ℚ := if a ≤ b then a else b

/-- Python `max(a, b)` on two values: the first maximal one. -/
def pyMax (a b : ℚ) : ℚ := if b ≤ a then a else b

/-- `g.name.lower() == "emergency fund"`. -/
def isEmergencyFund (g : Goal) : Bool :=
  decide (lowerStr g.name = ("emergency fund".toList))

/-- `next((g for g in goals if g.name.lower() == "emergency fund"), None)`
together with `[g for g in goals if g is not catch_all]`: first matching
goal (if any) is removed from the list; the rest keep their order. -/
def splitCatchAll : List Goal → Option Goal × List Goal
  | [] => (none, [])
  | g :: gs =>
    if isEmergencyFund g then (some g, gs)
    else
      let r := splitCatchAll gs
      (r.1, g :: r.2)

/-- The `for g in others` loop of `allocate_cash`: returns the goals with
their computed allocations and the remaining balance after the pass. -/
def waterfallLoop : ℚ → List Goal → List Goal × ℚ
  | remaining, [] => ([], remaining)
  | remaining, g :: gs =>
    let need := pyMax (g.target_amount - g.allocation) 0
    let alloc := pyMin need remaining
    let rest := waterfallLoop (remaining - alloc) gs
    ({ g with allocation := alloc } :: rest.1, rest.2)

/-- `allocate_cash` from src/streamlit/pages/Waterfall.py (lines 143-161). -/
def allocate_cash (total_balance : ℚ) (goals : List Goal) : List Goal :=
  let sp := splitCatchAll goals
  let others := List.insertionSort goalLe sp.2
  let res := waterfallLoop total_balance others
  match sp.1 with
  | some ca => { ca with allocation := res.2 } :: res.1
  | none => res.1

/-!  SHA-256, as used by `_make_id` (`hashlib.sha256(uid.encode()).hexdigest()`).
Words are `ℕ` reduced mod `2 ^ 32`; messages are byte lists. -/

/-- Right rotation of a 32-bit word (the two shifted parts are disjoint,
so addition is bitwise or). -/
def rotr (k x : ℕ) : ℕ := x / 2 ^ k + x % 2 ^ k * 2 ^ (32 - k)

/-- Bitwise complement of a 32-bit word. -/
def wnot (x : ℕ) : ℕ := 4294967295 - x

def smallSigma0 (x : ℕ) : ℕ := (rotr 7 x) ^^^ (rotr 18 x) ^^^ (x / 2 ^ 3)

def smallSigma1 (x : ℕ) : ℕ := (rotr 17 x) ^^^ (rotr 19 x) ^^^ (x / 2 ^ 10)

def bigSigma0 (x : ℕ) : ℕ := (rotr 2 x) ^^^ (rotr 13 x) ^^^ (rotr 22 x)

def bigSigma1 (x : ℕ) : ℕ := (rotr 6 x) ^^^ (rotr 11 x) ^^^ (rotr 25 x)

def chFn (x y z : ℕ) : ℕ := (x &&& y) ^^^ (wnot x &&& z)

def majFn (x y z : ℕ) : ℕ := (x &&& y) ^^^ (x &&& z) ^^^ (y &&& z)

/-- The 64 SHA-256 round constants. -/
def shaK : List ℕ :=
  [1116352408, 1899447441, 3049323471, 3921009573, 961987163,
   1508970993, 2453635748, 2870763221, 3624381080, 310598401,
   607225278, 1426881987, 1925078388, 2162078206, 2614888103,
   3248222580, 3835390401, 4022224774, 264347078, 604807628,
   770255983, 1249150122, 1555081692, 1996064986, 2554220882,
   2821834349, 2952996808, 3210313671, 3336571891, 3584528711,
   113926993, 338241895, 666307205, 773529912, 1294757372,
   1396182291, 1695183700, 1986661051, 2177026350, 2456956037,
   2730485921, 2820302411, 3259730800, 3345764771, 3516065817,
   3600352804, 4094571909, 275423344, 430227734, 506948616,
   659060556, 883997877, 958139571, 1322822218, 1537002063,
   1747873779, 1955562222, 2024104815, 2227730452, 2361852424,
   2428436474, 2756734187, 3204031479, 3329325298]

/-- The initial SHA-256 hash state. -/
def shaH0 : List ℕ :=
  [1779033703, 3144134277, 1013904242, 2773480762,
   1359893119, 2600822924, 528734635, 1541459225]

/-- One extension step of the message schedule. -/
def scheduleStep (w : List ℕ) : List ℕ :=
  let n := w.length
  w ++ [(smallSigma1 (w.getD (n - 2) 0) + w.getD (n - 7) 0
    + smallSigma0 (w.getD (n - 15) 0) + w.getD (n - 16) 0) % 2 ^ 32]

/-- Extend the 16 chunk words to the 64 schedule words. -/
def schedule (chunk : List ℕ) : List ℕ :=
  (List.range 48).foldl (fun w _ => scheduleStep w) chunk

/-- One compression round: the state is the 8 working variables. -/
def roundStep (st : List ℕ) (kw : ℕ × ℕ) : List ℕ :=
  let a := st.getD 0 0
  let b := st.getD 1 0
  let c := st.getD 2 0
  let d := st.getD 3 0
  let e := st.getD 4 0
  let f := st.getD 5 0
  let g := st.getD 6 0
  let hh := st.getD 7 0
  let t1 := hh + bigSigma1 e + chFn e f g + kw.1 + kw.2
  let t2 := bigSigma0 a + majFn a b c
  [(t1 + t2) % 2 ^ 32, a, b, c, (d + t1) % 2 ^ 32, e, f, g]

/-- Compress one 16-word chunk into the hash state. -/
def processChunk (hs : List ℕ) (chunk : List ℕ) : List ℕ :=
  let st := (shaK.zip (schedule chunk)).foldl roundStep hs
  (hs.zip st).map (fun p => (p.1 + p.2) % 2 ^ 32)

/-- Big-endian bytes of the 64-bit message-length field. -/
def lengthBytes (n : ℕ) : List ℕ :=
  [n / 2 ^ 56 % 256, n / 2 ^ 48 % 256, n / 2 ^ 40 % 256, n / 2 ^ 32 % 256,
   n / 2 ^ 24 % 256, n / 2 ^ 16 % 256, n / 2 ^ 8 % 256, n % 256]

/-- SHA-256 padding: a 0x80 byte, zeros to 56 mod 64, then the bit length. -/
def padMessage (msg : List ℕ) : List ℕ :=
  let len := msg.length
  msg ++ [0x80] ++ List.replicate ((64 + 55 - len % 64) % 64) 0
    ++ lengthBytes (8 * len)

/-- Big-endian 4-byte groups to 32-bit words. -/
def bytesToWords : List ℕ → List ℕ
  | b1 :: b2 :: b3 :: b4 :: rest =>
    (((b1 * 256 + b2) * 256 + b3) * 256 + b4) :: bytesToWords rest
  | _ => []

/-- Split into 64-byte chunks; the fuel makes the recursion structural. -/
def chunksGo : ℕ → List ℕ → List (List ℕ)
  | 0, _ => []
  | fuel + 1, l => if l = [] then [] else l.take 64 :: chunksGo fuel (l.drop 64)

def chunks64 (l : List ℕ) : List (List ℕ) := chunksGo l.length l

/-- The eight 32-bit digest words of a byte message. -/
def sha256Words (msg : List ℕ) : List ℕ :=
  (chunks64 (padMessage msg)).foldl (fun hs ch => processChunk hs (bytesToWords ch)) shaH0

/-- The lower-case hex character of a nibble. -/
def nibbleChar (n : ℕ) : Char := ("0123456789abcdef".toList).getD (n % 16) '0'

/-- Eight hex characters of one 32-bit word, most significant first. -/
def hexWord8 (n : ℕ) : List Char :=
  [nibbleChar (n / 16 ^ 7), nibbleChar (n / 16 ^ 6), nibbleChar (n / 16 ^ 5),
   nibbleChar (n / 16 ^ 4), nibbleChar (n / 16 ^ 3), nibbleChar (n / 16 ^ 2),
   nibbleChar (n / 16 ^ 1), nibbleChar n]

/-- `hashlib.sha256(bytes).hexdigest()`. -/
def sha256hex (msg : List ℕ) : Str :=
  (sha256Words msg).flatMap hexWord8

/-- UTF-8 bytes of one character (`str.encode()` per character). -/
def utf8Char (c : Char) : List ℕ :=
  let n := c.toNat
  if n < 0x80 then [n]
  else if n < 0x800 then [0xc0 + n / 64, 0x80 + n % 64]
  else if n < 0x10000 then
    [0xe0 + n / 4096, 0x80 + n / 64 % 64, 0x80 + n % 64]
  else
    [0xf0 + n / 262144, 0x80 + n / 4096 % 64, 0x80 + n / 64 % 64, 0x80 + n % 64]

/-- `str.encode()`: UTF-8 bytes of a string. -/
def utf8Encode (s : Str) : List ℕ := s.flatMap utf8Char

/-!  The normalization pipeline of src/streamlit/finance_utils.py
(`normalize`, lines 83-161, and the inner `_make_id`).  The per-source
column remapping and merchant enrichment happen before the core cleans and
are not modelled; a `RawRow` is a row after that stage. -/

/-- A raw row at the point the core cleans run: `Category`/`Type` may be
NA (`none`), `Amount` is the raw text. -/
structure RawRow where
  transaction_date : Date
  description : Str
  category : Option Str
  type_ : Option Str
  amount : Str
  source : Str
deriving DecidableEq

/-- The row state at the moment `_make_id` is applied (all cleans done). -/
structure MidRow where
  transaction_date : Date
  description : Str
  category : Str
  type_ : Str
  amount : ℚ
  source : Str
  transaction_type : Str
  amount_changed : ℚ
deriving DecidableEq

/-- The persisted canonical row (the 9-column projection of `normalize`,
also the schema of `airflow_data.transactions`). -/
structure CanonRow where
  transaction_id : Str
  transaction_date : Date
  description : Str
  category : Str
  type_ : Str
  amount : ℚ
  source : Str
  transaction_type : Str
  amount_changed : ℚ
deriving DecidableEq

/-- Digit run of a natural number, base 10. -/
def natDigits (n : ℕ) : Str := Nat.toDigits 10 n

/-- Zero-padded two-digit field. -/
def pad2 (n : ℕ) : Str := if n < 10 then '0' :: natDigits n else natDigits n

/-- Rendering of the timestamp as interpolated by `_make_id`
(`str` of a midnight pandas Timestamp: `YYYY-MM-DD 00:00:00`). -/
def dateRepr (d : Date) : Str :=
  let y := natDigits d.year
  (List.replicate (4 - y.length) '0' ++ y) ++ ('-' :: pad2 d.month)
    ++ ('-' :: pad2 d.day) ++ (" 00:00:00".toList)

/-- Rendering of the signed amount as interpolated by `_make_id`.  Python
renders the float's shortest round-trip decimal; the model renders the
exact rational as sign, numerator, slash, denominator.  Every theorem
below depends only on this being a function of the amount. -/
def ratRepr (q : ℚ) : Str :=
  (if q < 0 then ['-'] else []) ++ natDigits q.num.natAbs ++ ('/' :: natDigits q.den)

/-- The `uid` f-string of `_make_id`:
date, amount_changed, description and source joined by underscores. -/
def uidString (r : MidRow) : Str :=
  dateRepr r.transaction_date ++ ('_' :: ratRepr r.amount_changed)
    ++ ('_' :: r.description) ++ ('_' :: r.source)

/-- `_make_id` (finance_utils.py lines 144-149):
`hashlib.sha256(uid.encode()).hexdigest()`. -/
def makeId (r : MidRow) : Str := sha256hex (utf8Encode (uidString r))

/-- The fixed marker of the mobile-payment override. -/
def mobileMarker : Str := "Payment Thank You-Mobile -".toList

/-- The row-level core of `normalize` (lines 128-149): classifier, type
clean, amount resolution (reading the already-cleaned type), sign-derived
transaction type, the case-insensitive mobile-payment override, the
`Amount` mirror and the id hash. -/
def normalizeRow (r : RawRow) : CanonRow :=
  let category := clean_category r.category
  let tpClean := clean_type r.type_
  let amt := clean_amount r.amount tpClean
  let ttSign := if 0 < amt then ("Income".toList) else ("Spending".toList)
  let isMobile := containsSub (lowerStr mobileMarker) (lowerStr r.description)
  let tt := if isMobile then ("Payment".toList) else ttSign
  let tpFinal := if isMobile then ("Payment".toList) else tpClean
  let mid : MidRow :=
    { transaction_date := r.transaction_date, description := r.description,
      category := category, type_ := tpFinal, amount := amt, source := r.source,
      transaction_type := tt, amount_changed := amt }
  { transaction_id := makeId mid, transaction_date := mid.transaction_date,
    description := mid.description, category := mid.category,
    type_ := mid.type_, amount := mid.amount, source := mid.source,
    transaction_type := mid.transaction_type,
    amount_changed := mid.amount_changed }

/-- `normalize` over a batch of rows. -/
def normalize (rows : List RawRow) : List CanonRow := rows.map normalizeRow

/-!  Function `save_to_db` from finance_utils.py (lines 169-210): the table is keyed
by `transaction_id`; `INSERT ... ON CONFLICT (transaction_id) DO NOTHING`
appends a row only when its key is absent. -/

/-- Key lookup in the table. -/
def hasKey (table : List CanonRow) (k : Str) : Bool :=
  table.any (fun r => decide (r.transaction_id = k))

/-- One `INSERT ... ON CONFLICT DO NOTHING` statement. -/
def insertRow (table : List CanonRow) (r : CanonRow) : List CanonRow :=
  if hasKey table r.transaction_id then table else table ++ [r]

/-- `save_to_db`: iterate the batch, inserting with conflict-ignore. -/
def save_to_db (table : List CanonRow) (df : List CanonRow) : List CanonRow :=
  df.foldl insertRow table

/-!  Function `find_monthly_subscriptions` from finance_utils.py (lines 223-253).
`List.insertionSort` is a stable sort, so it models both the sorted
group-key order of `groupby(sort=True)` and `sort_values`. -/

/-- One row of the detector's result frame. -/
structure SubEntry where
  description : Str
  amount : ℚ
  months : ℕ
  firstMonth : ℕ × ℕ
  lastMonth : ℕ × ℕ
deriving DecidableEq

/-- `to_period("M")`: the (year, month) pair of a date. -/
def monthOf (d : Date) : ℕ × ℕ := (d.year, d.month)

/-- Strict lexicographic order on strings by code point (Python `<`). -/
def strLtB : Str → Str → Bool
  | [], [] => false
  | [], _ :: _ => true
  | _ :: _, [] => false
  | a :: as, b :: bs => if a < b then true else if a = b then strLtB as bs else false

/-- Ascending order on group keys (description, amount), as produced by
`groupby(sort=True)`. -/
abbrev keyLe (a b : Str × ℚ) : Prop :=
  strLtB a.1 b.1 = true ∨ (a.1 = b.1 ∧ a.2 ≤ b.2)

/-- Earliest month of a nonempty list (`("month", "min")`). -/
def monthMin : List (ℕ × ℕ) → ℕ × ℕ
  | [] => (0, 0)
  | m :: rest =>
    rest.foldl (fun a x => if x.1 < a.1 ∨ (x.1 = a.1 ∧ x.2 < a.2) then x else a) m

/-- Latest month of a nonempty list (`("month", "max")`). -/
def monthMax : List (ℕ × ℕ) → ℕ × ℕ
  | [] => (0, 0)
  | m :: rest =>
    rest.foldl (fun a x => if a.1 < x.1 ∨ (a.1 = x.1 ∧ a.2 < x.2) then x else a) m

/-- The grouping stage: outflow rows grouped by the exact
(description, amount_changed) pair, with the count of distinct calendar
months touched; amounts still signed. -/
def subscriptionGroups (df : List CanonRow) : List SubEntry :=
  let spend := df.filter (fun t => decide (t.amount_changed < 0))
  let keys := List.insertionSort keyLe
    ((spend.map (fun t => (t.description, t.amount_changed))).dedup)
  keys.map (fun k =>
    let ms := ((spend.filter (fun t =>
        decide (t.description = k.1) && decide (t.amount_changed = k.2))).map
      (fun t => monthOf t.transaction_date)).dedup
    { description := k.1, amount := k.2, months := ms.length,
      firstMonth := monthMin ms, lastMonth := monthMax ms })

/-- `subs["Amount"] = subs["Amount"].abs()` applied to one entry. -/
def absEntry (e : SubEntry) : SubEntry := { e with amount := pyAbs e.amount }

/-- Descending order on reported amounts (`sort_values(ascending=False)`). -/
abbrev subGe (a b : SubEntry) : Prop := b.amount ≤ a.amount

instance : IsTotal SubEntry subGe := ⟨fun a b => le_total b.amount a.amount⟩

instance : IsTrans SubEntry subGe :=
  ⟨fun _ _ _ hab hbc => le_trans hbc hab⟩

/-- `find_monthly_subscriptions`: keep groups touching at least
`min_months` distinct months, report absolute amounts, order by amount
descending. -/
def find_monthly_subscriptions (df : List CanonRow) (min_months : ℕ) : List SubEntry :=
  List.insertionSort subGe
    (((subscriptionGroups df).filter (fun g => decide (min_months ≤ g.months))).map absEntry)

/-!  Concrete instances and specification-shaped definitions used by the
claim theorems. -/

/-- The Vacation goal of the spec's worked example. -/
def vacationGoal : Goal :=
  { id := none, name := ("Vacation".toList), target_date := ⟨2025, 6, 1⟩,
    target_amount := 1000, allocation := 0 }

/-- The Car goal of the spec's worked example. -/
def carGoal : Goal :=
  { id := none, name := ("Car".toList), target_date := ⟨2025, 9, 1⟩,
    target_amount := 2000, allocation := 0 }

/-- The Emergency Fund catch-all goal of the spec's worked example. -/
def emergencyFundGoal : Goal :=
  { id := none, name := ("Emergency Fund".toList), target_date := ⟨2100, 1, 1⟩,
    target_amount := 15000, allocation := 0 }

/-- Specification-shaped rule evaluator: an ordered list of keyword groups,
first matching group wins, otherwise a fallback of the input. -/
def applyRules (rules : List (List Str × Str)) (fallback : Str → Str) (t : Str) : Str :=
  match rules.find? (fun rule => kwAny rule.1 t) with
  | some rule => rule.2
  | none => fallback t

/-- The ordered category keyword groups as the spec lists them. -/
def categoryRules : List (List Str × Str) :=
  [ ([("food".toList), ("restaurant".toList), ("drink".toList)], ("Food & Drink".toList)),
    ([("gas".toList), ("fuel".toList)], ("Gas".toList)),
    ([("grocery".toList)], ("Groceries".toList)),
    ([("travel".toList), ("airline".toList), ("hotel".toList)], ("Travel".toList)),
    ([("entertainment".toList), ("movies".toList), ("theater".toList)], ("Entertainment".toList)),
    ([("utility".toList), ("bill".toList)], ("Utilities".toList)),
    ([("health".toList), ("medical".toList)], ("Health & Wellness".toList)),
    ([("shop".toList), ("retail".toList), ("clothing".toList)], ("Shopping".toList)),
    ([("fees".toList), ("adjustment".toList), ("charge".toList)], ("Fees & Adjustments".toList)),
    ([("donation".toList), ("gift".toList)], ("Gifts & Donations".toList)),
    ([("personal".toList), ("home".toList), ("auto".toList)], ("Personal & Home".toList)),
    ([("misc".toList)], ("Misc".toList)) ]

/-- The ordered type keyword groups as the spec lists them. -/
def typeRules : List (List Str × Str) :=
  [ ([("deposit".toList), ("income".toList), ("return".toList)], ("Income".toList)),
    ([("payment".toList), ("withdrawal".toList), ("purchase".toList), ("debit".toList)],
      ("Spending".toList)),
    ([("transfer".toList)], ("Transfer".toList)),
    ([("interest".toList)], ("Interest".toList)) ]

/-- `clean_amount` with its negative-magnitude-forcing branch removed
(the behaviour claimed to be the reachable one inside `normalize`). -/
def clean_amount_posOnly (amount : Str) (tp : Str) : ℚ :=
  match parseFloat (cleanedAmountText amount) with
  | some value =>
    if lowerStr tp ∈ [("income".toList), ("deposit".toList), ("return".toList),
        ("credit".toList)] then pyAbs value
    else value
  | none => 0

/-- A stored outflow/inflow row with only the detector-relevant fields
populated. -/
def subTx (d : Date) (desc : Str) (amt : ℚ) : CanonRow :=
  { transaction_id := [], transaction_date := d, description := desc,
    category := [], type_ := [], amount := amt, source := [],
    transaction_type := [], amount_changed := amt }

/-- Three monthly -9.99 charges across three distinct months, plus an
inflow row. -/
def streamingDf : List CanonRow :=
  [ subTx ⟨2025, 1, 15⟩ ("Streaming Co".toList) (-(Rat.divInt 999 100)),
    subTx ⟨2025, 2, 15⟩ ("Streaming Co".toList) (-(Rat.divInt 999 100)),
    subTx ⟨2025, 3, 15⟩ ("Streaming Co".toList) (-(Rat.divInt 999 100)),
    subTx ⟨2025, 3, 1⟩ ("Salary".toList) 3000 ]

/-- Three identical charges spanning only two distinct calendar months. -/
def twoMonthDf : List CanonRow :=
  [ subTx ⟨2025, 1, 2⟩ ("Gym".toList) (-50),
    subTx ⟨2025, 2, 2⟩ ("Gym".toList) (-50),
    subTx ⟨2025, 2, 20⟩ ("Gym".toList) (-50) ]

/-- A concrete fully-cleaned row (spending at a coffee shop). -/
def midRowA : MidRow :=
  { transaction_date := ⟨2025, 5, 2⟩, description := ("COFFEE SHOP".toList),
    category := ("Food & Drink".toList), type_ := ("Sale".toList),
    amount := -(Rat.divInt 9 2), source := ("Chase".toList),
    transaction_type := ("Spending".toList), amount_changed := -(Rat.divInt 9 2) }

/-- The same row with different category, type, mirrored amount and
transaction type, agreeing with `midRowA` exactly on the four id inputs. -/
def midRowB : MidRow :=
  { transaction_date := ⟨2025, 5, 2⟩, description := ("COFFEE SHOP".toList),
    category := ("Uncategorized".toList), type_ := ("Other".toList),
    amount := 0, source := ("Chase".toList),
    transaction_type := ("Income".toList), amount_changed := -(Rat.divInt 9 2) }

/-- A raw row whose description matches the mobile-payment marker
case-insensitively and whose amount is positive. -/
def mobileRawRow : RawRow :=
  { transaction_date := ⟨2025, 5, 1⟩,
    description := ("PAYMENT THANK YOU-MOBILE - 0123".toList),
    category := none, type_ := none, amount := ("300".toList),
    source := ("Chase".toList) }

/-!  Character-level facts about the ASCII case maps. -/

theorem toNat_ofNat_valid {n : ℕ} (h : n.isValidChar) : (Char.ofNat n).toNat = n := by
  unfold Char.ofNat
  rw [dif_pos h]
  rfl

theorem toLower_eq (c : Char) :
    c.toLower = if 65 ≤ c.toNat ∧ c.toNat ≤ 90 then Char.ofNat (c.toNat + 32) else c := rfl

theorem toUpper_eq (c : Char) :
    c.toUpper = if 97 ≤ c.toNat ∧ c.toNat ≤ 122 then Char.ofNat (c.toNat - 32) else c := rfl

theorem toNat_toLower (c : Char) :
    c.toLower.toNat = if 65 ≤ c.toNat ∧ c.toNat ≤ 90 then c.toNat + 32 else c.toNat := by
  rw [toLower_eq]
  split_ifs with h
  · exact toNat_ofNat_valid (Or.inl (by omega))
  · rfl

theorem toNat_toUpper (c : Char) :
    c.toUpper.toNat = if 97 ≤ c.toNat ∧ c.toNat ≤ 122 then c.toNat - 32 else c.toNat := by
  rw [toUpper_eq]
  split_ifs with h
  · exact toNat_ofNat_valid (Or.inl (by omega))
  · rfl

theorem toLower_toLower (c : Char) : c.toLower.toLower = c.toLower := by
  rw [toLower_eq c.toLower, toNat_toLower]
  split_ifs <;> first | rfl | omega

theorem toLower_toUpper (c : Char) : c.toUpper.toLower = c.toLower := by
  rw [toLower_eq c.toUpper, toNat_toUpper, toLower_eq c]
  split_ifs with h1 h2 h3 <;> try omega
  all_goals try rfl
  · have hs : c.toNat - 32 + 32 = c.toNat := by omega
    rw [hs, Char.ofNat_toNat]
  · rw [toUpper_eq, if_neg h1]

theorem isSpace_toLower (c : Char) : isSpaceChar c.toLower = isSpaceChar c := by
  unfold isSpaceChar
  rw [toNat_toLower]
  split_ifs with h
  · exact decide_eq_decide.mpr (by omega)
  · rfl

/-!  String-level facts: lower-casing is idempotent, commutes with
stripping, and absorbs title-casing. -/

theorem lowerStr_idem (l : Str) : lowerStr (lowerStr l) = lowerStr l := by
  rw [lowerStr, lowerStr, List.map_map]
  exact List.map_congr_left (fun a _ => toLower_toLower a)

theorem lowerStr_titleGo (b : Bool) (l : Str) : lowerStr (titleGo b l) = lowerStr l := by
  induction l generalizing b with
  | nil => rfl
  | cons c rest ih =>
    simp only [titleGo, lowerStr, List.map_cons] at *
    rw [ih]
    refine congrArg (fun x => x :: _) ?_
    by_cases ha : c.isAlpha
    · by_cases hb : b <;> simp [ha, hb, toLower_toLower, toLower_toUpper]
    · simp [ha]

theorem lowerStr_title (l : Str) : lowerStr (title l) = lowerStr l :=
  lowerStr_titleGo false l

theorem map_toLower_dropWhile (x : Str) :
    (x.dropWhile isSpaceChar).map Char.toLower
      = (x.map Char.toLower).dropWhile isSpaceChar := by
  have hspace : (isSpaceChar ∘ Char.toLower) = isSpaceChar :=
    funext (fun c => isSpace_toLower c)
  rw [List.dropWhile_map, hspace]

theorem lowerStr_strip (l : Str) : lowerStr (strip l) = strip (lowerStr l) := by
  simp only [lowerStr, strip, List.map_reverse, map_toLower_dropWhile]

theorem lowerStr_strip_lowerStr (s : Str) :
    lowerStr (strip (lowerStr s)) = strip (lowerStr s) := by
  rw [lowerStr_strip, lowerStr_idem]

theorem containsSub_self (k : Str) : containsSub k k = true := by
  simp only [containsSub, decide_eq_true_eq]
  exact List.infix_refl k

/-!  Helper facts about `pyAbs`, `pyMin` and `pyMax`. -/

theorem pyAbs_eq_abs (q : ℚ) : pyAbs q = |q| := by
  unfold pyAbs
  split_ifs with h
  · exact (abs_of_neg h).symm
  · exact (abs_of_nonneg (not_lt.mp h)).symm

theorem pyMax_zero_nonneg (a : ℚ) : 0 ≤ pyMax a 0 := by
  unfold pyMax
  split_ifs with h
  · exact h
  · exact le_refl 0

theorem pyMin_nonneg {a b : ℚ} (ha : 0 ≤ a) (hb : 0 ≤ b) : 0 ≤ pyMin a b := by
  unfold pyMin
  split_ifs <;> assumption

theorem pyMin_le_right (a b : ℚ) : pyMin a b ≤ b := by
  unfold pyMin
  split_ifs with h
  · exact h
  · exact le_refl b

theorem pyMin_zero_of_nonneg {a : ℚ} (ha : 0 ≤ a) : pyMin a 0 = 0 := by
  unfold pyMin
  split_ifs with h
  · exact le_antisymm h ha
  · rfl

/-!  Invariants of the waterfall loop. -/

theorem waterfallLoop_nonneg : ∀ (gs : List Goal) (rem : ℚ), 0 ≤ rem →
    0 ≤ (waterfallLoop rem gs).2 ∧ ∀ g ∈ (waterfallLoop rem gs).1, 0 ≤ g.allocation := by
  intro gs
  induction gs with
  | nil => intro rem h; exact ⟨h, by simp [waterfallLoop]⟩
  | cons g rest ih =>
    intro rem h
    have hneed : 0 ≤ pyMax (g.target_amount - g.allocation) 0 := pyMax_zero_nonneg _
    have halloc : 0 ≤ pyMin (pyMax (g.target_amount - g.allocation) 0) rem :=
      pyMin_nonneg hneed h
    have hrem2 : 0 ≤ rem - pyMin (pyMax (g.target_amount - g.allocation) 0) rem :=
      sub_nonneg.mpr (pyMin_le_right _ _)
    obtain ⟨ih2, ih1⟩ := ih _ hrem2
    refine ⟨by simpa [waterfallLoop] using ih2, ?_⟩
    intro x hx
    simp only [waterfallLoop, List.mem_cons] at hx
    rcases hx with hx | hx
    · subst hx; exact halloc
    · exact ih1 x hx

theorem waterfallLoop_zero : ∀ gs : List Goal,
    (waterfallLoop 0 gs).2 = 0 ∧ ∀ g ∈ (waterfallLoop 0 gs).1, g.allocation = 0 := by
  intro gs
  induction gs with
  | nil => exact ⟨rfl, by simp [waterfallLoop]⟩
  | cons g rest ih =>
    have hmin : pyMin (pyMax (g.target_amount - g.allocation) 0) 0 = 0 :=
      pyMin_zero_of_nonneg (pyMax_zero_nonneg _)
    obtain ⟨ih2, ih1⟩ := ih
    refine ⟨by simpa [waterfallLoop, hmin] using ih2, ?_⟩
    intro x hx
    simp only [waterfallLoop, hmin, List.mem_cons, sub_zero] at hx
    rcases hx with hx | hx
    · subst hx; rfl
    · exact ih1 x hx

/-!  Shape facts about the SHA-256 digest. -/

theorem roundStep_length (st : List ℕ) (kw : ℕ × ℕ) : (roundStep st kw).length = 8 := rfl

theorem foldl_roundStep_length : ∀ (l : List (ℕ × ℕ)) (st : List ℕ), st.length = 8 →
    (l.foldl roundStep st).length = 8 := by
  intro l
  induction l with
  | nil => intro st h; exact h
  | cons a t ih => intro st h; exact ih _ (roundStep_length st a)

theorem processChunk_length (hs ch : List ℕ) (h : hs.length = 8) :
    (processChunk hs ch).length = 8 := by
  have hst := foldl_roundStep_length (shaK.zip (schedule ch)) hs h
  simp [processChunk, List.length_zip, h, hst]

theorem sha256Words_length (msg : List ℕ) : (sha256Words msg).length = 8 := by
  have hgen : ∀ (cs : List (List ℕ)) (hs : List ℕ), hs.length = 8 →
      (cs.foldl (fun hs ch => processChunk hs (bytesToWords ch)) hs).length = 8 := by
    intro cs
    induction cs with
    | nil => intro hs h; exact h
    | cons c t ih => intro hs h; exact ih _ (processChunk_length _ _ h)
  exact hgen _ shaH0 rfl

theorem hexWord8_length (n : ℕ) : (hexWord8 n).length = 8 := rfl

theorem sha256hex_length (msg : List ℕ) : (sha256hex msg).length = 64 := by
  have hflat : ∀ l : List ℕ, (l.flatMap hexWord8).length = 8 * l.length := by
    intro l
    induction l with
    | nil => rfl
    | cons a t ih =>
      simp only [List.flatMap_cons, List.length_append, ih, hexWord8_length,
        List.length_cons]
      ring
  rw [sha256hex, hflat, sha256Words_length]

theorem nibbleChar_mem (n : ℕ) : nibbleChar n ∈ ("0123456789abcdef".toList) := by
  unfold nibbleChar
  have hlt : n % 16 < ("0123456789abcdef".toList).length := by
    have h16 : n % 16 < 16 := Nat.mod_lt _ (by norm_num)
    simpa using h16
  rw [List.getD_eq_getElem _ _ hlt]
  exact List.getElem_mem hlt

theorem sha256hex_hex (msg : List ℕ) : ∀ c ∈ sha256hex msg, c ∈ ("0123456789abcdef".toList) := by
  intro c hc
  rw [sha256hex, List.mem_flatMap] at hc
  obtain ⟨w, _, hw⟩ := hc
  simp only [hexWord8, List.mem_cons, List.not_mem_nil, or_false] at hw
  rcases hw with rfl|rfl|rfl|rfl|rfl|rfl|rfl|rfl <;> exact nibbleChar_mem _

/-!  Facts about the conflict-ignoring store. -/

theorem insertRow_of_hasKey (t : List CanonRow) (r : CanonRow)
    (h : hasKey t r.transaction_id = true) : insertRow t r = t := by
  simp [insertRow, h]

theorem hasKey_insertRow (t : List CanonRow) (r : CanonRow) (k : Str)
    (h : hasKey t k = true) : hasKey (insertRow t r) k = true := by
  unfold insertRow
  split_ifs with hr
  · exact h
  · unfold hasKey at *
    rw [List.any_append]
    simp [h]

theorem hasKey_insertRow_self (t : List CanonRow) (r : CanonRow) :
    hasKey (insertRow t r) r.transaction_id = true := by
  unfold insertRow
  split_ifs with hr
  · exact hr
  · unfold hasKey
    rw [List.any_append]
    simp

theorem hasKey_save_to_db (df : List CanonRow) : ∀ (t : List CanonRow) (k : Str),
    hasKey t k = true → hasKey (save_to_db t df) k = true := by
  induction df with
  | nil => intro t k h; exact h
  | cons a rest ih => intro t k h; exact ih _ _ (hasKey_insertRow _ _ _ h)

theorem hasKey_save_to_db_of_mem (df : List CanonRow) : ∀ (t : List CanonRow) (r : CanonRow),
    r ∈ df → hasKey (save_to_db t df) r.transaction_id = true := by
  induction df with
  | nil => intro t r h; cases h
  | cons a rest ih =>
    intro t r h
    rcases List.mem_cons.mp h with rfl | h2
    · exact hasKey_save_to_db rest _ _ (hasKey_insertRow_self t r)
    · exact ih _ _ h2

theorem save_to_db_of_all (df : List CanonRow) : ∀ t : List CanonRow,
    (∀ r ∈ df, hasKey t r.transaction_id = true) → save_to_db t df = t := by
  induction df with
  | nil => intro t _; rfl
  | cons a rest ih =>
    intro t h
    have h1 : insertRow t a = t := insertRow_of_hasKey t a (h a (List.mem_cons_self a rest))
    calc save_to_db t (a :: rest) = save_to_db (insertRow t a) rest := rfl
    _ = save_to_db t rest := by rw [h1]
    _ = t := ih t (fun r hr => h r (List.mem_cons_of_mem a hr))

/-!  Refinement lemmas: the classifier chains equal the ordered-rule-list
evaluator, and the type classifier never emits a negative-set keyword. -/

theorem clean_category_eq_applyRules (s : Str) :
    clean_category (some s) = applyRules categoryRules title (strip (lowerStr s)) := by
  simp only [clean_category, applyRules, categoryRules, List.find?]
  cases h1 : kwAny [("food".toList), ("restaurant".toList), ("drink".toList)] (strip (lowerStr s)) <;> simp [h1]
  cases h2 : kwAny [['g', 'a', 's'], ['f', 'u', 'e', 'l']] (strip (lowerStr s)) <;> simp [h2]
  cases h3 : kwAny [['g', 'r', 'o', 'c', 'e', 'r', 'y']] (strip (lowerStr s)) <;> simp [h3]
  cases h4 : kwAny [['t', 'r', 'a', 'v', 'e', 'l'], ['a', 'i', 'r', 'l', 'i', 'n', 'e'], ['h', 'o', 't', 'e', 'l']] (strip (lowerStr s)) <;> simp [h4]
  cases h5 : kwAny [['e', 'n', 't', 'e', 'r', 't', 'a', 'i', 'n', 'm', 'e', 'n', 't'], ['m', 'o', 'v', 'i', 'e', 's'], ['t', 'h', 'e', 'a', 't', 'e', 'r']] (strip (lowerStr s)) <;> simp [h5]
  cases h6 : kwAny [['u', 't', 'i', 'l', 'i', 't', 'y'], ['b', 'i', 'l', 'l']] (strip (lowerStr s)) <;> simp [h6]
  cases h7 : kwAny [['h', 'e', 'a', 'l', 't', 'h'], ['m', 'e', 'd', 'i', 'c', 'a', 'l']] (strip (lowerStr s)) <;> simp [h7]
  cases h8 : kwAny [['s', 'h', 'o', 'p'], ['r', 'e', 't', 'a', 'i', 'l'], ['c', 'l', 'o', 't', 'h', 'i', 'n', 'g']] (strip (lowerStr s)) <;> simp [h8]
  cases h9 : kwAny [['f', 'e', 'e', 's'], ['a', 'd', 'j', 'u', 's', 't', 'm', 'e', 'n', 't'], ['c', 'h', 'a', 'r', 'g', 'e']] (strip (lowerStr s)) <;> simp [h9]
  cases h10 : kwAny [['d', 'o', 'n', 'a', 't', 'i', 'o', 'n'], ['g', 'i', 'f', 't']] (strip (lowerStr s)) <;> simp [h10]
  cases h11 : kwAny [['p', 'e', 'r', 's', 'o', 'n', 'a', 'l'], ['h', 'o', 'm', 'e'], ['a', 'u', 't', 'o']] (strip (lowerStr s)) <;> simp [h11]
  cases h12 : kwAny [['m', 'i', 's', 'c']] (strip (lowerStr s)) <;> simp [h12]

theorem clean_type_eq_applyRules (s : Str) :
    clean_type (some s) = applyRules typeRules title (strip (lowerStr s)) := by
  simp only [clean_type, applyRules, typeRules, List.find?]
  cases h1 : kwAny [("deposit".toList), ("income".toList), ("return".toList)] (strip (lowerStr s)) <;> simp [h1]
  cases h2 : kwAny [['p', 'a', 'y', 'm', 'e', 'n', 't'], ['w', 'i', 't', 'h', 'd', 'r', 'a', 'w', 'a', 'l'], ['p', 'u', 'r', 'c', 'h', 'a', 's', 'e'], ['d', 'e', 'b', 'i', 't']] (strip (lowerStr s)) <;> simp [h2]
  cases h3 : kwAny [['t', 'r', 'a', 'n', 's', 'f', 'e', 'r']] (strip (lowerStr s)) <;> simp [h3]
  cases h4 : kwAny [['i', 'n', 't', 'e', 'r', 'e', 's', 't']] (strip (lowerStr s)) <;> simp [h4]

theorem clean_type_lower_not_neg (tp : Option Str) :
    lowerStr (clean_type tp) ∉ [("payment".toList), ("withdrawal".toList),
      ("debit".toList), ("purchase".toList)] := by
  match tp with
  | none => decide
  | some s =>
    have hlow : lowerStr (strip (lowerStr s)) = strip (lowerStr s) := lowerStr_strip_lowerStr s
    simp only [clean_type]
    split_ifs with h1 h2 h3 h4
    · decide
    · decide
    · decide
    · decide
    · rw [lowerStr_title, hlow]
      intro hmem
      simp only [List.mem_cons, List.not_mem_nil, or_false] at hmem
      apply h2
      simp only [kwAny, List.any_eq_true]
      rcases hmem with h | h | h | h
      · exact ⟨("payment".toList), by simp, by rw [h]; exact containsSub_self _⟩
      · exact ⟨("withdrawal".toList), by simp, by rw [h]; exact containsSub_self _⟩
      · exact ⟨("debit".toList), by simp, by rw [h]; exact containsSub_self _⟩
      · exact ⟨("purchase".toList), by simp, by rw [h]; exact containsSub_self _⟩

theorem clean_amount_eq_posOnly (a t : Str)
    (hneg : lowerStr t ∉ [("payment".toList), ("withdrawal".toList),
      ("debit".toList), ("purchase".toList)]) :
    clean_amount a t = clean_amount_posOnly a t := by
  cases hp : parseFloat (cleanedAmountText a) with
  | none => simp [clean_amount, clean_amount_posOnly, hp]
  | some v =>
    simp only [clean_amount, clean_amount_posOnly, hp]
    by_cases h1 : lowerStr t = ['i','n','c','o','m','e'] ∨ lowerStr t = ['d','e','p','o','s','i','t']
        ∨ lowerStr t = ['r','e','t','u','r','n'] ∨ lowerStr t = ['c','r','e','d','i','t']
    · simp [h1]
    · by_cases h2 : lowerStr t = ['p','a','y','m','e','n','t']
          ∨ lowerStr t = ['w','i','t','h','d','r','a','w','a','l']
          ∨ lowerStr t = ['d','e','b','i','t'] ∨ lowerStr t = ['p','u','r','c','h','a','s','e']
      · exfalso
        apply hneg
        rcases h2 with h | h | h | h <;> simp [h]
      · simp [h1, h2]

/-!  Claim theorems.  Each theorem settles one claim of the specification
against the embedded code. -/

/-- Claim C1: waterfall allocation worked example.  For the goal list
[Vacation (2025-06-01, 1000), Car (2025-09-01, 2000),
Emergency Fund (2100-01-01, 15000)] with all allocations initially 0,
`allocate_cash` with balance 1500 assigns Vacation 1000, Car 500 and
Emergency Fund 0; with balance 5000 it assigns Vacation 1000, Car 2000 and
Emergency Fund 2000; the output lists the catch-all first and then the
others sorted by target date ascending. -/
theorem c1_waterfall_worked_example :
    allocate_cash 1500 [vacationGoal, carGoal, emergencyFundGoal] =
      [{ emergencyFundGoal with allocation := 0 },
        { vacationGoal with allocation := 1000 },
        { carGoal with allocation := 500 }] ∧
    allocate_cash 5000 [vacationGoal, carGoal, emergencyFundGoal] =
      [{ emergencyFundGoal with allocation := 2000 },
        { vacationGoal with allocation := 1000 },
        { carGoal with allocation := 2000 }] :=
  ⟨by with_unfolding_all rfl, by with_unfolding_all rfl⟩

/-- Claim C2: amount-resolver sign policy.  `clean_amount` strips the
currency symbol and thousands separators and parses the number; a
lower-cased type hint in {income, deposit, return, credit} forces the
positive magnitude, one in {payment, withdrawal, debit, purchase} forces
the negative magnitude, otherwise the parsed sign is kept.  In particular,
type hint "Payment" with text "$1,234.56" yields -1234.56, and type hint
"Deposit" with "-50" yields 50. -/
theorem c2_amount_sign_policy :
    (∀ (a tp : Str), clean_amount a tp =
      match parseFloat (cleanedAmountText a) with
      | some v =>
        if lowerStr tp ∈ [("income".toList), ("deposit".toList), ("return".toList),
            ("credit".toList)] then |v|
        else if lowerStr tp ∈ [("payment".toList), ("withdrawal".toList),
            ("debit".toList), ("purchase".toList)] then -|v|
        else v
      | none => 0) ∧
    clean_amount ("$1,234.56".toList) ("Payment".toList) = -(Rat.divInt 123456 100) ∧
    clean_amount ("-50".toList) ("Deposit".toList) = 50 := by
  refine ⟨?_, by decide, by decide⟩
  intro a tp
  rcases hp : parseFloat (cleanedAmountText a) with _ | v <;>
    simp [clean_amount, hp, pyAbs_eq_abs]

/-- Claim C3: identity determinism.  `makeId` is a pure function of
exactly (transaction date, signed amount, description, source): any two
fully-cleaned rows agreeing on those four fields receive the same digest
regardless of every other field, and the digest is a fixed-length (64)
hex string. -/
theorem c3_make_id_pure (r1 r2 : MidRow)
    (hdate : r1.transaction_date = r2.transaction_date)
    (hamt : r1.amount_changed = r2.amount_changed)
    (hdesc : r1.description = r2.description)
    (hsrc : r1.source = r2.source) :
    makeId r1 = makeId r2 ∧ (makeId r1).length = 64 ∧
      ∀ c ∈ makeId r1, c ∈ ("0123456789abcdef".toList) := by
  refine ⟨?_, sha256hex_length _, sha256hex_hex _⟩
  unfold makeId uidString
  rw [hdate, hamt, hdesc, hsrc]

/-- Witness for C3: two concrete rows differing in category, type, the
amount mirror and the transaction type, but agreeing on the four id
inputs, receive the same digest. -/
theorem c3_make_id_pure_witness :
    (midRowA.transaction_date = midRowB.transaction_date ∧
      midRowA.amount_changed = midRowB.amount_changed ∧
      midRowA.description = midRowB.description ∧
      midRowA.source = midRowB.source ∧ midRowA ≠ midRowB) ∧
    makeId midRowA = makeId midRowB :=
  ⟨⟨rfl, by decide, rfl, rfl, by decide⟩,
    (c3_make_id_pure midRowA midRowB rfl (by decide) rfl rfl).1⟩

/-- Claim C4: upsert idempotence.  With the table as a sequence keyed by
`transaction_id` and insert-or-ignore-on-conflict semantics, upserting a
batch twice equals upserting it once, and inserting a row whose key is
already present leaves the table untouched. -/
theorem c4_upsert_idempotent (table df : List CanonRow) :
    save_to_db (save_to_db table df) df = save_to_db table df ∧
      ∀ r : CanonRow, hasKey table r.transaction_id = true → insertRow table r = table := by
  constructor
  · exact save_to_db_of_all df _ (fun r hr => hasKey_save_to_db_of_mem df table r hr)
  · intro r h
    exact insertRow_of_hasKey table r h

/-- Witness for C4: a concrete existing row is left untouched by a
conflicting insert. -/
theorem c4_upsert_idempotent_witness :
    hasKey [subTx ⟨2025, 1, 1⟩ ("A".toList) 5] (subTx ⟨2025, 1, 1⟩ ("A".toList) 5).transaction_id
        = true ∧
      insertRow [subTx ⟨2025, 1, 1⟩ ("A".toList) 5] (subTx ⟨2025, 1, 1⟩ ("A".toList) 5)
        = [subTx ⟨2025, 1, 1⟩ ("A".toList) 5] :=
  ⟨by decide, (c4_upsert_idempotent [subTx ⟨2025, 1, 1⟩ ("A".toList) 5] []).2 _ (by decide)⟩

/-- Claim C5: classifier totality and rule order.  Null input yields the
fixed defaults "Uncategorized" and "Other"; otherwise the lower-cased,
trimmed input is matched against the ordered keyword groups with the first
matching group winning, and a non-matching input yields the title-cased
original (via the rule-list evaluator `applyRules`, whose rule order is the
one the spec lists). -/
theorem c5_classifier_totality :
    clean_category none = ("Uncategorized".toList) ∧
    clean_type none = ("Other".toList) ∧
    (∀ s : Str, clean_category (some s) = applyRules categoryRules title (strip (lowerStr s))) ∧
    (∀ s : Str, clean_type (some s) = applyRules typeRules title (strip (lowerStr s))) :=
  ⟨rfl, rfl, clean_category_eq_applyRules, clean_type_eq_applyRules⟩

/-- Claim C6: lenient amount parsing.  `clean_amount` is total, and when
the cleaned amount text does not parse as a number the result is exactly
0. -/
theorem c6_lenient_parse (a tp : Str) (h : parseFloat (cleanedAmountText a) = none) :
    clean_amount a tp = 0 := by
  simp [clean_amount, h]

/-- Witness for C6: the malformed text "abc" is resolved to zero. -/
theorem c6_lenient_parse_witness :
    parseFloat (cleanedAmountText ("abc".toList)) = none ∧
      clean_amount ("abc".toList) ("Payment".toList) = 0 :=
  ⟨by decide, c6_lenient_parse _ _ (by decide)⟩

/-- Counterexample for C7: with a strictly negative balance (-100) and one
non-catch-all goal, `allocate_cash` assigns the goal -100, not 0, so the
claim "zero or negative balance gives every non-catch-all goal allocation
0 (hence non-negative allocations)" fails as stated. -/
theorem c7_counterexample :
    (-100 : ℚ) ≤ 0 ∧ isEmergencyFund vacationGoal = false ∧
      (allocate_cash (-100) [vacationGoal]).map Goal.allocation = [-100] := by
  refine ⟨by norm_num, by decide, by with_unfolding_all rfl⟩

/-- Claim C7 (amended): `allocate_cash` never raises (it is a total
function); for every non-negative balance every computed allocation is
non-negative, and with balance exactly zero every goal (catch-all
included) is assigned 0. -/
theorem c7_amended_nonneg (balance : ℚ) (goals : List Goal) (hb : 0 ≤ balance) :
    (∀ g ∈ allocate_cash balance goals, 0 ≤ g.allocation) ∧
    (balance = 0 → ∀ g ∈ allocate_cash balance goals, g.allocation = 0) := by
  obtain ⟨h2, h1⟩ :=
    waterfallLoop_nonneg (List.insertionSort goalLe (splitCatchAll goals).2) balance hb
  constructor
  · intro g hg
    rcases hsp : (splitCatchAll goals).1 with _ | ca
    · simp only [allocate_cash, hsp] at hg
      exact h1 g hg
    · simp only [allocate_cash, hsp, List.mem_cons] at hg
      rcases hg with hg | hg
      · subst hg; exact h2
      · exact h1 g hg
  · intro h0
    subst h0
    obtain ⟨z2, z1⟩ := waterfallLoop_zero (List.insertionSort goalLe (splitCatchAll goals).2)
    intro g hg
    rcases hsp : (splitCatchAll goals).1 with _ | ca
    · simp only [allocate_cash, hsp] at hg
      exact z1 g hg
    · simp only [allocate_cash, hsp, List.mem_cons] at hg
      rcases hg with hg | hg
      · subst hg; exact z2
      · exact z1 g hg

/-- Witness for the amended C7 at balance 0 with a concrete goal list. -/
theorem c7_amended_nonneg_witness :
    (0 : ℚ) ≤ 0 ∧ ∀ g ∈ allocate_cash 0 [vacationGoal, emergencyFundGoal], 0 ≤ g.allocation :=
  ⟨le_refl 0, (c7_amended_nonneg 0 [vacationGoal, emergencyFundGoal] (le_refl 0)).1⟩

/-- Claim C8: mobile-payment override.  A normalized row whose description
contains the marker "Payment Thank You-Mobile -" case-insensitively gets
transaction_type Payment and type Payment regardless of the amount sign;
a non-matching row keeps the sign-derived transaction type (positive
amount gives Income, otherwise Spending). -/
theorem c8_mobile_override (r : RawRow) :
    (containsSub (lowerStr mobileMarker) (lowerStr r.description) = true →
      (normalizeRow r).transaction_type = ("Payment".toList) ∧
      (normalizeRow r).type_ = ("Payment".toList)) ∧
    (containsSub (lowerStr mobileMarker) (lowerStr r.description) = false →
      (normalizeRow r).transaction_type =
        (if 0 < (normalizeRow r).amount_changed then ("Income".toList)
          else ("Spending".toList))) := by
  constructor <;> intro h <;> simp [normalizeRow, h]

/-- Witness for C8: a concrete marker row with positive amount is still
typed Payment. -/
theorem c8_mobile_override_witness :
    containsSub (lowerStr mobileMarker) (lowerStr mobileRawRow.description) = true ∧
      ((normalizeRow mobileRawRow).transaction_type = ("Payment".toList) ∧
        (normalizeRow mobileRawRow).type_ = ("Payment".toList)) :=
  ⟨by decide, (c8_mobile_override mobileRawRow).1 (by decide)⟩

set_option maxRecDepth 10000 in
/-- Claim C9: subscription detector contract.  The result is ordered by
reported amount descending; an entry is in the result exactly when it is
the absolute-amount image of a (description, amount) outflow group whose
distinct-month count reaches `min_months`; three monthly -9.99 charges
across three distinct months are reported at min_months 3, while charges
spanning only two distinct months are not. -/
theorem c9_subscription_detector :
    (∀ (df : List CanonRow) (m : ℕ),
      List.Pairwise (fun a b : SubEntry => b.amount ≤ a.amount)
        (find_monthly_subscriptions df m)) ∧
    (∀ (df : List CanonRow) (m : ℕ) (e : SubEntry),
      e ∈ find_monthly_subscriptions df m ↔
        ∃ g ∈ subscriptionGroups df, m ≤ g.months ∧ e = absEntry g) ∧
    find_monthly_subscriptions streamingDf 3 =
      [{ description := ("Streaming Co".toList), amount := Rat.divInt 999 100,
          months := 3, firstMonth := (2025, 1), lastMonth := (2025, 3) }] ∧
    find_monthly_subscriptions twoMonthDf 3 = [] := by
  refine ⟨?_, ?_, by with_unfolding_all rfl, by with_unfolding_all rfl⟩
  · intro df m
    exact List.sorted_insertionSort subGe
      (((subscriptionGroups df).filter (fun g => decide (m ≤ g.months))).map absEntry)
  · intro df m e
    have hperm := List.perm_insertionSort subGe
      (((subscriptionGroups df).filter (fun g => decide (m ≤ g.months))).map absEntry)
    rw [find_monthly_subscriptions, hperm.mem_iff, List.mem_map]
    constructor
    · rintro ⟨g, hg, rfl⟩
      rw [List.mem_filter] at hg
      exact ⟨g, hg.1, by simpa using hg.2, rfl⟩
    · rintro ⟨g, hg, hm, rfl⟩
      exact ⟨g, List.mem_filter.mpr ⟨hg, by simpa using hm⟩, rfl⟩

/-- Claim C10 (implicit): dead negative branch.  Inside `normalize` the
amount resolver sees the already-cleaned type, whose lower-casing is never
"payment", "withdrawal", "debit" or "purchase"; hence on every row of the
pipeline `clean_amount` coincides with its negative-branch-free variant,
so the sign of `amount_changed` is the parsed sign unless the cleaned type
lower-cases to "income", "deposit", "return" or "credit". -/
theorem c10_dead_negative_branch (tp : Option Str) (a : Str) :
    lowerStr (clean_type tp) ∉ [("payment".toList), ("withdrawal".toList),
        ("debit".toList), ("purchase".toList)] ∧
      clean_amount a (clean_type tp) = clean_amount_posOnly a (clean_type tp) :=
  ⟨clean_type_lower_not_neg tp,
    clean_amount_eq_posOnly a _ (clean_type_lower_not_neg tp)⟩

end Jaynode
